import Mathlib

/-!
Verification of the Auto CRUD service core (search/filter, pagination and
optimistic-locking logic) against a shallow embedding of the TypeScript
sources under `src/software-engineering/prisma/src/auto/`.

The embedding models:
* `WhereBuilder.build` (where-builder.ts),
* `AutoService.findById` / `find` / `count` (auto-service.ts),
* `AutoWriteService.create` / `update` / `delete` (the write service),
* the DTO-to-create-input mappings of the REST controller and the GraphQL
  mutation resolver.

The Prisma persistence layer is modelled as an in-memory list of rows; a
transaction that throws leaves the store unchanged, which the write
operations make explicit by returning the (possibly unchanged) store
together with the outcome.
-/

namespace AutoApp

/-! ## JavaScript primitive semantics -/

/-- ASCII digit test, as used by the `\d` character class of the `u`-flagged
regular expressions in the source (`\d` is ASCII-only under `/u`). -/
def isDigitChar (c : Char) : Bool := 48 ≤ c.toNat && c.toNat ≤ 57

/-- Numeric value of an ASCII digit character. -/
def digitVal (c : Char) : Nat := c.toNat - 48

/-- Value of a digit string read left to right in base 10. -/
def digitsVal (cs : List Char) : Nat := cs.foldl (fun acc c => 10 * acc + digitVal c) 0

/-- Whitespace characters skipped by `Number.parseInt` / `Number.parseFloat`
(the common ASCII subset; exotic Unicode whitespace is outside the modelled
input range of this service). -/
def isWsChar (c : Char) : Bool := c == ' ' || c == '\t' || c == '\n' || c == '\r'

/-- The digit-prefix step shared by `Number.parseInt(s, 10)`: the maximal
leading run of ASCII digits, `none` when that run is empty (JS `NaN`). -/
def jsDigitsValue (cs : List Char) : Option Nat :=
  let ds := cs.takeWhile isDigitChar
  if ds.isEmpty then none else some (digitsVal ds)

/-- `Number.parseInt(s, 10)` on the character list of `s`: skip leading
whitespace, an optional sign, then the maximal digit prefix; `none` models
`NaN` (no digits). -/
def jsParseIntChars (cs : List Char) : Option Int :=
  let cs1 := cs.dropWhile isWsChar
  match cs1 with
  | c :: rest =>
    if c == '+' then (jsDigitsValue rest).map (fun n => (n : Int))
    else if c == '-' then (jsDigitsValue rest).map (fun n => -(n : Int))
    else (jsDigitsValue (c :: rest)).map (fun n => (n : Int))
  | [] => none

/-- `Number.parseInt(s, 10)` for a string. -/
def jsParseInt (s : String) : Option Int := jsParseIntChars s.data

/-- A JavaScript number as produced by `Number.parseFloat`: finite values are
exact rationals (decimal literals are finite decimals), plus the two
infinities; `NaN` is represented by `Option.none` at the use sites. -/
inductive JsNumber where
  | finite (q : ℚ)
  | posInf
  | negInf
deriving DecidableEq, Repr

/-- Multiply a rational by a signed power of ten (exponent part of a decimal
literal). -/
def mulPow10 (q : ℚ) (e : Int) : ℚ :=
  if 0 ≤ e then q * (10 : ℚ) ^ e.toNat else q / (10 : ℚ) ^ (-e).toNat

/-- Negation on `JsNumber`. -/
def JsNumber.neg : JsNumber → JsNumber
  | .finite q => .finite (-q)
  | .posInf => .negInf
  | .negInf => .posInf

/-- Does the list start with the given characters? -/
def startsWithL : List Char → List Char → Bool
  | [], _ => true
  | _ :: _, [] => false
  | c :: cs, d :: ds => c == d && startsWithL cs ds

/-- ASCII lower-casing of a character list (`String.prototype.toLowerCase`
for the ASCII domain of this service). -/
def toLowerL (cs : List Char) : List Char := cs.map Char.toLower

/-- ASCII upper-casing of a character list (`String.prototype.toUpperCase`
for the ASCII domain of this service). -/
def toUpperL (cs : List Char) : List Char := cs.map Char.toUpper

/-- The exponent part of a decimal literal at the head of the list
(`e`/`E`, optional sign, digits); `0` when no well-formed exponent part is
present (in which case `parseFloat` does not consume it, so the value is
unchanged). -/
def expValue (cs : List Char) : Int :=
  match cs with
  | c :: rest =>
    if c == 'e' || c == 'E' then
      match rest with
      | '+' :: r2 => match jsDigitsValue r2 with | some n => (n : Int) | none => 0
      | '-' :: r2 => match jsDigitsValue r2 with | some n => -(n : Int) | none => 0
      | r2 => match jsDigitsValue r2 with | some n => (n : Int) | none => 0
    else 0
  | [] => 0

/-- The unsigned part of `Number.parseFloat`: `Infinity`, or a decimal
literal `digits [. digits] [exp]` with at least one digit; `none` models
`NaN`. -/
def jsParseFloatUnsigned (cs : List Char) : Option JsNumber :=
  if startsWithL "Infinity".data cs then some .posInf
  else
    let ip := cs.takeWhile isDigitChar
    let rest1 := cs.dropWhile isDigitChar
    let fp := match rest1 with
      | '.' :: t => t.takeWhile isDigitChar
      | _ => []
    let rest2 := match rest1 with
      | '.' :: t => t.dropWhile isDigitChar
      | _ => rest1
    if ip.isEmpty && fp.isEmpty then none
    else
      let mantissa : ℚ := (digitsVal ip : ℚ) + (digitsVal fp : ℚ) / (10 : ℚ) ^ fp.length
      some (.finite (mulPow10 mantissa (expValue rest2)))

/-- `Number.parseFloat(s)` on the character list of `s`: skip leading
whitespace, optional sign, then the longest valid decimal-literal prefix;
`none` models `NaN`. -/
def jsParseFloatChars (cs : List Char) : Option JsNumber :=
  let cs1 := cs.dropWhile isWsChar
  match cs1 with
  | '+' :: rest => jsParseFloatUnsigned rest
  | '-' :: rest => (jsParseFloatUnsigned rest).map JsNumber.neg
  | _ => jsParseFloatUnsigned cs1

/-- `Number.parseFloat(s)` for a string. -/
def jsParseFloat (s : String) : Option JsNumber := jsParseFloatChars s.data

/-- A loosely-typed JavaScript value as it reaches the search path: the
`Suchparameter` fields are typed `string | number | boolean` in the source
and arrive untrusted from the transport layer. -/
inductive JsValue where
  | vStr (s : String)
  | vNum (q : ℚ)
  | vBool (b : Bool)
deriving DecidableEq, Repr

/-- Truncation of a rational toward zero (the value `parseInt` recovers from
the plain decimal string form of a finite JS number). -/
def truncRat (q : ℚ) : Int := if 0 ≤ q then ⌊q⌋ else -⌊-q⌋

/-- `Number.parseFloat(value)` where `value` may be a string, number or
boolean: `parseFloat` coerces its argument to a string first; for a finite
number the round trip returns the number itself, and the strings `"true"` /
`"false"` parse to `NaN`. -/
def jsParseFloatOfValue : JsValue → Option JsNumber
  | .vStr s => jsParseFloat s
  | .vNum q => some (.finite q)
  | .vBool _ => none

/-- `Number.parseInt(value, 10)` on a loosely-typed value: for a number the
string coercion is modelled for plain decimal notation (numbers formatted in
exponential notation lie outside the modelled input range), where `parseInt`
truncates toward zero; `"true"` / `"false"` parse to `NaN`. -/
def jsParseIntOfValue : JsValue → Option Int
  | .vStr s => jsParseInt s
  | .vNum q => some (truncRat q)
  | .vBool _ => none

/-- Calendar dates are modelled as `yyyy * 10000 + mm * 100 + dd`, which
orders exactly as the calendar does. `jsDateParse` models `new Date(s)` for
the ISO `YYYY-MM-DD` strings this schema's `date` column uses; other inputs
yield `none` (an invalid date, which matches nothing under `gte`). -/
def jsDateParse (s : String) : Option Int :=
  match s.data with
  | [y1, y2, y3, y4, '-', m1, m2, '-', d1, d2] =>
    if isDigitChar y1 && isDigitChar y2 && isDigitChar y3 && isDigitChar y4 &&
       isDigitChar m1 && isDigitChar m2 && isDigitChar d1 && isDigitChar d2 then
      let m := digitsVal [m1, m2]
      let d := digitsVal [d1, d2]
      if 1 ≤ m && m ≤ 12 && 1 ≤ d && d ≤ 31 then
        some ((digitsVal [y1, y2, y3, y4] * 10000 + m * 100 + d : Nat) : Int)
      else none
    else none
  | _ => none

/-- The date interpretation of a filter value handed to `new Date(value)`;
non-string arguments are outside the modelled input range of the transport
layer and yield an invalid date. -/
def jsDateOfValue : JsValue → Option Int
  | .vStr s => jsDateParse s
  | _ => none

/-! ## Search parameters and the where builder (where-builder.ts) -/

/-- The runtime shape of a `Suchparameter` object: the TypeScript record
type is erased at runtime, so `find` receives an object with arbitrary
string keys and loosely-typed values (this is exactly why `#checkKeys`
exists).  A JS object has no duplicate keys, so the lists occurring in
practice have pairwise distinct keys. -/
abbrev Suchparameter := List (String × JsValue)

/-- The fixed whitelist of search-parameter names (suchparameter.ts,
`suchparameterNamen`). -/
def suchparameterNamen : List String :=
  ["fgnr", "art", "preis", "rabatt", "lieferbar", "datum", "schlagwort", "modell"]

/-- The price predicate stored in the where object: `{ lte: bound }`, a
price ceiling. -/
inductive PreisPred where
  | lte (bound : JsNumber)
deriving DecidableEq, Repr

/-- The discount predicate stored in the where object: `{ gte: bound }`, a
minimum discount. -/
inductive RabattPred where
  | gte (bound : Int)
deriving DecidableEq, Repr

/-- The Prisma `autoWhereInput` object assembled by `WhereBuilder.build`.
`modell` is a case-insensitive substring predicate on the related model
label, `fgnr` a starts-with predicate, `art` an equality against the raw
filter value, `lieferbar` a boolean equality, `datum` holds the argument of
`new Date(value)` (a pure function of the value, applied in the row
semantics), and `schlagwoerter` an array-contains predicate. -/
structure AutoWhere where
  modell : Option JsValue := none
  fgnr : Option JsValue := none
  preis : Option PreisPred := none
  rabatt : Option RabattPred := none
  art : Option JsValue := none
  lieferbar : Option Bool := none
  datum : Option JsValue := none
  schlagwoerter : Option String := none
deriving DecidableEq, Repr

/-- The boolean coercion of the `lieferbar` branch: a string compares
(lower-cased) against `"true"`; any other value goes through `Boolean`,
which on a number tests non-zero and on a boolean is the identity. -/
def jsBoolCoerce : JsValue → Bool
  | .vStr s => toLowerL s.data == "true".data
  | .vNum q => decide (q ≠ 0)
  | .vBool b => b

namespace WhereBuilder

/-- One iteration of the `switch` in `WhereBuilder.build` over the
non-`schlagwort` entries: each recognised key overwrites its own field of
the where object; `preis` and `rabatt` are parsed tolerantly and leave the
object unchanged when parsing fails (`NaN`); unknown keys fall through.
The `modell`, `fgnr`, `art` and `datum` branches store the raw value (the
source's `as string` is a type assertion, not a conversion; the date
interpretation of `datum` is applied in the row semantics). -/
def applyEntry (w : AutoWhere) (kv : String × JsValue) : AutoWhere :=
  if kv.1 = "modell" then
    { w with modell := some kv.2 }
  else if kv.1 = "fgnr" then
    { w with fgnr := some kv.2 }
  else if kv.1 = "preis" then
    match jsParseFloatOfValue kv.2 with
    | some n => { w with preis := some (.lte n) }
    | none => w
  else if kv.1 = "rabatt" then
    match jsParseIntOfValue kv.2 with
    | some n => { w with rabatt := some (.gte n) }
    | none => w
  else if kv.1 = "art" then
    { w with art := some kv.2 }
  else if kv.1 = "lieferbar" then
    { w with lieferbar := some (jsBoolCoerce kv.2) }
  else if kv.1 = "datum" then
    { w with datum := some kv.2 }
  else w

/-- `#buildSchlagwoerter`: an absent or blank tag means no tag filter,
otherwise the tag is upper-cased.  The `Suchparameter` type constrains
`schlagwort` to `string`; a non-string value would make `.trim()` throw and
is outside the modelled input range, rendered here as no tag filter. -/
def buildSchlagwoerter (schlagwort : Option JsValue) : Option String :=
  match schlagwort with
  | some (.vStr s) =>
    if (s.data.dropWhile isWsChar).isEmpty then none
    else some (String.mk (toUpperL s.data))
  | _ => none

/-- `WhereBuilder.build`: destructure the `schlagwort` entry away, fold the
switch over the remaining entries, then attach the tag predicate if one
results. -/
def build (sp : Suchparameter) : AutoWhere :=
  let restProps := sp.filter (fun kv => kv.1 ≠ "schlagwort")
  let w := restProps.foldl applyEntry {}
  match buildSchlagwoerter (List.lookup "schlagwort" sp) with
  | some s => { w with schlagwoerter := some s }
  | none => w

end WhereBuilder

/-! ## The entity and the persistence layer -/

/-- A stored `auto` row together with its 1:1 `modell` label (the read path
always includes it).  `modell` is `none` when no related row exists (the
include yields `null` then).  `schlagwoerter` is a nullable array column,
hence `Option (List String)`; `datum` a nullable date.  The `bild` and
`auto_file` sub-resources are not modelled: no claim under verification
depends on them. -/
structure Auto where
  id : Nat
  version : Nat
  fgnr : String
  art : Option String
  preis : ℚ
  rabatt : Int
  lieferbar : Bool
  datum : Option Int
  schlagwoerter : Option (List String)
  modell : Option String
deriving DecidableEq, Repr

/-- The in-memory model of the `auto` table. -/
abbrev Store := List Auto

/-- Case-insensitive substring test (needle inside hay), the semantics of
Prisma `contains` with `mode: insensitive`. -/
def containsSubL : List Char → List Char → Bool
  | needle, [] => needle.isEmpty
  | needle, c :: cs => startsWithL needle (c :: cs) || containsSubL needle cs

/-- `a.preis <= bound` where the bound is a parsed JS number. -/
def jsLeRat (a : ℚ) : JsNumber → Bool
  | .finite q => decide (a ≤ q)
  | .posInf => true
  | .negInf => false

/-- Semantics of one assembled where object on one row, i.e. the row filter
the Prisma query engine applies for `findMany where`.  A predicate built
from a non-string value where the schema requires a string lies outside the
modelled input range and matches nothing. -/
def rowMatches (w : AutoWhere) (a : Auto) : Bool :=
  (match w.modell with
   | none => true
   | some (.vStr p) =>
     match a.modell with
     | some m => containsSubL (toLowerL p.data) (toLowerL m.data)
     | none => false
   | some _ => false) &&
  (match w.fgnr with
   | none => true
   | some (.vStr p) => startsWithL p.data a.fgnr.data
   | some _ => false) &&
  (match w.preis with
   | none => true
   | some (.lte b) => jsLeRat a.preis b) &&
  (match w.rabatt with
   | none => true
   | some (.gte b) => decide (b ≤ a.rabatt)) &&
  (match w.art with
   | none => true
   | some (.vStr s) => a.art == some s
   | some _ => false) &&
  (match w.lieferbar with
   | none => true
   | some b => a.lieferbar == b) &&
  (match w.datum with
   | none => true
   | some v =>
     match jsDateOfValue v, a.datum with
     | some bound, some d => decide (bound ≤ d)
     | _, _ => false) &&
  (match w.schlagwoerter with
   | none => true
   | some s =>
     match a.schlagwoerter with
     | some l => l.contains s
     | none => false)

/-- `prisma.auto.findMany` on the store: optional where filter, then
`skip`/`take` (offset/limit). -/
def prismaFindMany (store : Store) (w : Option AutoWhere) (skip take : Nat) : List Auto :=
  ((match w with
    | some w => store.filter (rowMatches w)
    | none => store).drop skip).take take

/-! ## Errors, paging, slices -/

/-- The typed failures raised by the services.  `notFound` stands for
`NotFoundException`; the other three are modelled from the spec's error
taxonomy (`exceptions.ts` is not part of the provided sources): a
`Conflict` carrying the chassis-number, a version-invalid error carrying
the offending token, and a version-outdated error carrying the claimed
version.  Exception message strings are presentation detail and are not
modelled. -/
inductive Err where
  | notFound
  | fgnrExists (fgnr : String)
  | versionInvalid (version : String)
  | versionOutdated (version : Int)
deriving DecidableEq, Repr

/-- Modelled from the spec: `pageable.ts` is not part of the provided
sources; a pageable is the 0-based page number plus the page size. -/
structure Pageable where
  number : Nat
  size : Nat
deriving DecidableEq, Repr

/-- Modelled from the spec: `slice.ts` is not part of the provided sources;
a slice is the returned content plus the total element count. -/
structure Slice (α : Type) where
  content : List α
  totalElements : Nat
deriving DecidableEq, Repr

/-! ## AutoService (auto-service.ts): the read path -/

namespace AutoService

/-- The `auto.schlagwoerter ??= []` normalisation applied at every read
boundary. -/
def normalizeSchlagwoerter (a : Auto) : Auto :=
  { a with schlagwoerter := some (a.schlagwoerter.getD []) }

/-- `findById`: fetch one row by id; `NotFoundException` when no row
matches; normalise the tag array.  The `mitBilder` flag only selects which
relations are loaded and is immaterial to the flattened row model. -/
def findById (store : Store) (id : Nat) : Except Err Auto :=
  match store.find? (fun a => a.id == id) with
  | none => .error .notFound
  | some a => .ok (normalizeSchlagwoerter a)

/-- `count`: total number of rows, no filter. -/
def count (store : Store) : Nat := store.length

/-- `#createSlice`: normalise the tags of every returned row and pair the
content with the total element count. -/
def createSlice (autos : List Auto) (totalElements : Nat) : Slice Auto :=
  { content := autos.map normalizeSchlagwoerter, totalElements := totalElements }

/-- `#findAll`: the unfiltered paginated listing; an empty page is
`NotFoundException`. -/
def findAll (store : Store) (pageable : Pageable) : Except Err (Slice Auto) :=
  let autos := prismaFindMany store none (pageable.number * pageable.size) pageable.size
  if autos.length = 0 then .error .notFound
  else .ok (createSlice autos (count store))

/-- `#checkKeys`: every search-parameter name must be whitelisted. -/
def checkKeys (keys : List String) : Bool :=
  keys.all (fun key => suchparameterNamen.contains key)

/-- `#checkEnums`: the `art` value, if present, must be one of the fixed
enum variants (strict equality against the three literals, hence false for
any non-string value). -/
def checkEnums (sp : Suchparameter) : Bool :=
  match List.lookup "art" sp with
  | none => true
  | some (.vStr s) => s == "COUPE" || s == "LIMO" || s == "KOMBI"
  | some _ => false

/-- `find`: absent or empty search parameters delegate to the unfiltered
listing; invalid keys or an invalid `art` fail with `NotFoundException`;
otherwise filter, page, fail on an empty page, and pair the page with the
unfiltered total count (`this.count()`). -/
def find (store : Store) (sp : Option Suchparameter) (pageable : Pageable) :
    Except Err (Slice Auto) :=
  match sp with
  | none => findAll store pageable
  | some sp =>
    if sp.length = 0 then findAll store pageable
    else if !checkKeys (sp.map Prod.fst) || !checkEnums sp then .error .notFound
    else
      let w := WhereBuilder.build sp
      let autos := prismaFindMany store (some w) (pageable.number * pageable.size) pageable.size
      if autos.length = 0 then .error .notFound
      else .ok (createSlice autos (count store))

end AutoService

/-! ## AutoWriteService: the write path -/

/-- Is the head of the list the given character? -/
def headIs (c : Char) : List Char → Bool
  | c' :: _ => c' == c
  | [] => false

/-- `AutoWriteService.VERSION_PATTERN.test`, i.e. the regular expression
`/^"\d{1,3}"/u` on the character list: a double quote, one to three ASCII
digits, a double quote — anchored at the start only, so arbitrary
characters may follow the closing quote.  The alternation mirrors the
regex's backtracking: the quote may close after the first, second or third
digit. -/
def versionPatternTestL (cs : List Char) : Bool :=
  match cs with
  | c0 :: c1 :: rest =>
    c0 == '"' && isDigitChar c1 &&
      (headIs '"' rest ||
        (match rest with
         | c2 :: rest2 =>
           isDigitChar c2 &&
             (headIs '"' rest2 ||
               (match rest2 with
                | c3 :: rest3 => isDigitChar c3 && headIs '"' rest3
                | [] => false))
         | [] => false))
  | _ => false

/-- `AutoWriteService.VERSION_PATTERN.test` on a string. -/
def versionPatternTest (s : String) : Bool := versionPatternTestL s.data

/-- `versionStr.slice(1, -1)`: drop the first and the last character. -/
def jsSliceInner (s : String) : String := String.mk ((s.data.drop 1).dropLast)

/-- `Prisma.autoCreateInput` as the two DTO mappings produce it: the entity
attributes, the nested `modell` create (when the DTO carries one) and the
caller-controlled `version` field; `bilder` are omitted (no claim depends
on them). -/
structure AutoCreate where
  version : Nat
  fgnr : String
  art : Option String
  preis : ℚ
  rabatt : Int
  lieferbar : Bool
  datum : Option Int
  schlagwoerter : List String
  modell : Option String
deriving DecidableEq, Repr

/-- `Prisma.autoUpdateInput` as the two DTO mappings produce it (all entity
attributes set, the related `modell`/`bilder` untouched). -/
structure AutoUpdate where
  fgnr : String
  art : Option String
  preis : ℚ
  rabatt : Int
  lieferbar : Bool
  datum : Option Int
  schlagwoerter : List String
deriving DecidableEq, Repr

/-- The parameter record of `AutoWriteService.update`. -/
structure UpdateParams where
  id : Option Nat
  auto : AutoUpdate
  version : String
deriving DecidableEq, Repr

namespace AutoWriteService

/-- The id the store assigns to a newly inserted row.  The database uses an
identity sequence; it is modelled as one more than the largest existing id,
which is fresh — the only property the claims rely on. -/
def nextId (store : Store) : Nat :=
  store.foldl (fun m a => max m a.id) 0 + 1

/-- `create`: `#validateCreate` counts the rows carrying the same
chassis-number and fails with the conflict error naming it when one exists
(the source's `fgnr === undefined` guard is unreachable: `fgnr` is a
required field of `autoCreateInput`); otherwise the row — with the
attributes, including `version`, exactly as supplied — is inserted in one
transaction.  The post-commit notification mail is a decoupled side effect
with no bearing on the store and is not modelled.  Returns the store after
the call and the outcome (the new id). -/
def create (store : Store) (auto : AutoCreate) : Store × Except Err Nat :=
  if 0 < (store.filter (fun a => a.fgnr == auto.fgnr)).length then
    (store, .error (.fgnrExists auto.fgnr))
  else
    let id := nextId store
    let row : Auto :=
      { id := id, version := auto.version, fgnr := auto.fgnr, art := auto.art,
        preis := auto.preis, rabatt := auto.rabatt, lieferbar := auto.lieferbar,
        datum := auto.datum, schlagwoerter := some auto.schlagwoerter,
        modell := auto.modell }
    (store ++ [row], .ok id)

/-- The effect of `tx.auto.update` on the matching row: the caller's
attribute changes plus `version: { increment: 1 }`; the related
`modell` is untouched. -/
def applyUpdate (a : Auto) (u : AutoUpdate) : Auto :=
  { a with
    version := a.version + 1
    fgnr := u.fgnr
    art := u.art
    preis := u.preis
    rabatt := u.rabatt
    lieferbar := u.lieferbar
    datum := u.datum
    schlagwoerter := some u.schlagwoerter }

/-- `update`: a missing id is `NotFoundException`; `#validateUpdate` then
tests the version token against `VERSION_PATTERN` (before any store
access), parses the digits enclosed by `slice(1, -1)` and fetches the
stored row; a claimed version strictly below the stored one is the
version-outdated error (a `NaN` comparison is false, so an unparseable
claimed version — unreachable after the pattern test — would pass);
otherwise the row is updated in one transaction and the incremented
version returned.  Returns the store after the call and the outcome. -/
def update (store : Store) (p : UpdateParams) : Store × Except Err Nat :=
  match p.id with
  | none => (store, .error .notFound)
  | some id =>
    if !versionPatternTest p.version then
      (store, .error (.versionInvalid p.version))
    else
      match AutoService.findById store id with
      | .error e => (store, .error e)
      | .ok autoDb =>
        match jsParseInt (jsSliceInner p.version) with
        | some n =>
          if n < (autoDb.version : Int) then
            (store, .error (.versionOutdated n))
          else
            (store.map (fun a => if a.id == id then applyUpdate a p.auto else a),
             .ok (autoDb.version + 1))
        | none =>
          (store.map (fun a => if a.id == id then applyUpdate a p.auto else a),
           .ok (autoDb.version + 1))

/-- `delete`: fetch the row by id; absence is not an error and reports
`false`; otherwise the row is removed in one transaction (cascades handled
by the store) and `true` reported. -/
def delete (store : Store) (id : Nat) : Store × Bool :=
  match store.find? (fun a => a.id == id) with
  | none => (store, false)
  | some _ => (store.filter (fun a => a.id != id), true)

end AutoWriteService

/-! ## DTO-to-domain mappings (REST controller and GraphQL resolver) -/

/-- `AutoDTO` (auto-dto.ts), flattened with its `ModellDTO` label: the
caller-supplied payload for `create`.  It carries no version field at all;
`preis` and `rabatt` are modelled as already-normalised numbers (the
BigNumber coercions of the transport layer are value-preserving), `datum`
as an already-parsed optional date.  `bilder` are omitted (no claim depends
on them). -/
structure AutoDTO where
  fgnr : String
  art : Option String
  preis : ℚ
  rabatt : Option Int
  lieferbar : Option Bool
  datum : Option Int
  schlagwoerter : Option (List String)
  modell : Option String
deriving DecidableEq, Repr

/-- `AutoWriteController.#autoDtoToAutoCreateInput`: the REST mapping to
`autoCreateInput`, with `version` hard-wired to `0` and the `??` defaults
of the source. -/
def autoDtoToAutoCreateInput (dto : AutoDTO) : AutoCreate :=
  { version := 0
    fgnr := dto.fgnr
    art := dto.art
    preis := dto.preis
    rabatt := dto.rabatt.getD 0
    lieferbar := dto.lieferbar.getD false
    datum := dto.datum
    schlagwoerter := dto.schlagwoerter.getD []
    modell := dto.modell }

/-- `AutoMutationResolver.#autoDtoToAutoCreate`: the GraphQL mapping to
`autoCreateInput`; it differs from the REST mapping only in how the decimal
`preis` is coerced to a number, which the already-normalised model renders
identically — in particular `version` is hard-wired to `0` here as well. -/
def autoDtoToAutoCreate (dto : AutoDTO) : AutoCreate :=
  { version := 0
    fgnr := dto.fgnr
    art := dto.art
    preis := dto.preis
    rabatt := dto.rabatt.getD 0
    lieferbar := dto.lieferbar.getD false
    datum := dto.datum
    schlagwoerter := dto.schlagwoerter.getD []
    modell := dto.modell }

/-- The spec's words for the version-token shape, for comparison with the
source's `VERSION_PATTERN`: "a double-quote, 1–3 ASCII digits, a
double-quote", with nothing before or after — i.e. the whole string is
consumed. -/
def specVersionExact (s : String) : Bool :=
  match s.data with
  | ['"', d1, '"'] => isDigitChar d1
  | ['"', d1, d2, '"'] => isDigitChar d1 && isDigitChar d2
  | ['"', d1, d2, d3, '"'] => isDigitChar d1 && isDigitChar d2 && isDigitChar d3
  | _ => false

/-! ## Sample data for witnesses and counterexamples -/

/-- A stored row with version 0 (used by witnesses). -/
def sampleAuto1 : Auto :=
  { id := 1, version := 0, fgnr := "X1", art := some "COUPE", preis := 100,
    rabatt := 5, lieferbar := true, datum := none, schlagwoerter := some ["SPORT"],
    modell := some "BMW" }

/-- A stored row with version 3 (used by witnesses; the spec's running
example for the optimistic-lock check). -/
def sampleAuto2 : Auto :=
  { id := 2, version := 3, fgnr := "Y1", art := none, preis := 200,
    rabatt := 0, lieferbar := false, datum := none, schlagwoerter := some [],
    modell := some "AUDI" }

/-- A two-row sample store. -/
def sampleStore : Store := [sampleAuto1, sampleAuto2]

/-- A sample update payload. -/
def sampleUpd : AutoUpdate :=
  { fgnr := "X1", art := some "LIMO", preis := 150, rabatt := 10,
    lieferbar := false, datum := none, schlagwoerter := [] }

/-- A sample create payload. -/
def sampleDTO : AutoDTO :=
  { fgnr := "Z9", art := none, preis := 1, rabatt := none,
    lieferbar := none, datum := none, schlagwoerter := none, modell := some "VW" }

/-! ## Helper lemmas -/

/-- Decidable equality for `Except`, so witnesses can be settled by
`decide`. -/
instance {ε α : Type} [DecidableEq ε] [DecidableEq α] : DecidableEq (Except ε α) :=
  fun x y =>
    match x, y with
    | .error a, .error b =>
      if h : a = b then .isTrue (by rw [h])
      else .isFalse (by intro hc; injection hc; contradiction)
    | .ok a, .ok b =>
      if h : a = b then .isTrue (by rw [h])
      else .isFalse (by intro hc; injection hc; contradiction)
    | .error _, .ok _ => .isFalse (by intro hc; exact Except.noConfusion hc)
    | .ok _, .error _ => .isFalse (by intro hc; exact Except.noConfusion hc)

/-- `#findAll` pairs every successful result with the unfiltered total. -/
theorem findAll_totalElements (store : Store) (pg : Pageable) (s : Slice Auto)
    (h : AutoService.findAll store pg = .ok s) : s.totalElements = store.length := by
  simp only [AutoService.findAll] at h
  split at h
  · exact absurd h (by simp)
  · injection h with h
    subst h
    rfl

/-- `findById` can only fail with `NotFoundException`. -/
theorem findById_error_eq (store : Store) (id : Nat) (e : Err)
    (h : AutoService.findById store id = .error e) : e = .notFound := by
  simp only [AutoService.findById] at h
  split at h
  · injection h with h
    exact h.symm
  · exact absurd h (by simp)

/-! ## C1: totalElements of a filtered find -/

/-- The filter used by the C1 counterexample: a chassis-number prefix that
matches exactly one of the two stored rows. -/
def c1Filter : Suchparameter := [("fgnr", .vStr "X")]

/-- C1, counterexample: on a two-row store with exactly one row matching
the filter, `find` succeeds and reports `totalElements = 2`, the size of
the whole store, while only 1 row matches the filter across the whole
result set — so `totalElements` is not the count of all matching rows. -/
theorem C1_counterexample :
    (AutoService.find sampleStore (some c1Filter) ⟨0, 10⟩).map Slice.totalElements
        = .ok 2 ∧
      (sampleStore.filter (rowMatches (WhereBuilder.build c1Filter))).length = 1 := by
  exact ⟨by decide, by decide⟩

/-- C1 (amended): for every filter and pageable, whenever `find` succeeds
its `totalElements` equals the unfiltered total number of stored entities
(`AutoService.count`), not the number of rows matching the filter. -/
theorem C1_find_totalElements_unfiltered (store : Store) (sp : Option Suchparameter)
    (pg : Pageable) (s : Slice Auto)
    (h : AutoService.find store sp pg = .ok s) : s.totalElements = store.length := by
  match sp with
  | none => exact findAll_totalElements store pg s h
  | some sp =>
    simp only [AutoService.find] at h
    split at h
    · exact findAll_totalElements store pg s h
    · split at h
      · exact absurd h (by simp)
      · split at h
        · exact absurd h (by simp)
        · injection h with h
          subst h
          rfl

/-- C1 witness: the amended theorem applied to the concrete two-row store
and the concrete filter. -/
theorem C1_witness :
    AutoService.find sampleStore (some c1Filter) ⟨0, 10⟩
        = .ok (AutoService.createSlice [sampleAuto1] 2) ∧
      (AutoService.createSlice [sampleAuto1] 2).totalElements = sampleStore.length :=
  ⟨by decide, C1_find_totalElements_unfiltered sampleStore (some c1Filter) ⟨0, 10⟩ _ (by decide)⟩

/-! ## C6: chassis-number uniqueness on create -/

/-- C6: whenever the chassis-number of the create payload already occurs in
at least one stored row, `create` fails with the domain conflict error
naming that chassis-number and leaves the store unchanged (no second row is
created). -/
theorem C6_create_fgnr_conflict (store : Store) (inp : AutoCreate)
    (h : ∃ a ∈ store, a.fgnr = inp.fgnr) :
    AutoWriteService.create store inp = (store, .error (.fgnrExists inp.fgnr)) := by
  obtain ⟨a, ha, hf⟩ := h
  have hmem : a ∈ store.filter (fun a => a.fgnr == inp.fgnr) :=
    List.mem_filter.mpr ⟨ha, by simp [hf]⟩
  have hpos : 0 < (store.filter (fun a => a.fgnr == inp.fgnr)).length :=
    List.length_pos.mpr (List.ne_nil_of_mem hmem)
  simp [AutoWriteService.create, hpos]

/-- C6 witness: creating a row with the already-stored chassis-number `X1`
conflicts and leaves the two-row store unchanged. -/
theorem C6_witness :
    (∃ a ∈ sampleStore, a.fgnr = (autoDtoToAutoCreateInput { sampleDTO with fgnr := "X1" }).fgnr) ∧
      AutoWriteService.create sampleStore (autoDtoToAutoCreateInput { sampleDTO with fgnr := "X1" })
        = (sampleStore, .error (.fgnrExists "X1")) :=
  ⟨⟨sampleAuto1, by decide, by decide⟩,
    C6_create_fgnr_conflict sampleStore _ ⟨sampleAuto1, by decide, by decide⟩⟩

/-! ## C7: whitelist validation of find -/

/-- C7: every non-empty filter that contains a key outside the whitelist,
or whose `art` value is not one of the fixed enum variants, makes `find`
fail with `NotFoundException`, for every store and pageable — in
particular regardless of the validity of the other keys. -/
theorem C7_find_invalid_keys (store : Store) (sp : Suchparameter) (pg : Pageable)
    (hne : sp ≠ [])
    (hbad : AutoService.checkKeys (sp.map Prod.fst) = false ∨ AutoService.checkEnums sp = false) :
    AutoService.find store (some sp) pg = .error .notFound := by
  have hlen : ¬ sp.length = 0 := by
    simpa [List.length_eq_zero] using hne
  rcases hbad with hk | he
  · simp [AutoService.find, hlen, hk]
  · simp [AutoService.find, hlen, he]

/-- C7 witness: a filter with the non-whitelisted key `bogus` next to a
valid key fails with `NotFoundException` on the sample store. -/
theorem C7_witness :
    ([("bogus", JsValue.vStr "X"), ("fgnr", JsValue.vStr "X")] : Suchparameter) ≠ [] ∧
      AutoService.find sampleStore
          (some [("bogus", JsValue.vStr "X"), ("fgnr", JsValue.vStr "X")]) ⟨0, 10⟩
        = .error .notFound :=
  ⟨by decide,
    C7_find_invalid_keys sampleStore [("bogus", JsValue.vStr "X"), ("fgnr", JsValue.vStr "X")]
      ⟨0, 10⟩ (by decide) (Or.inl (by decide))⟩

/-! ## C9: delete is idempotent and never fails on absence -/

/-- C9: when a row with the id exists, `delete` removes exactly the rows
with that id, reports `true`, and a subsequent `findById` on the resulting
store fails with `NotFoundException`; when no row with the id exists,
`delete` reports `false` and leaves the store unchanged (absence is not an
error). -/
theorem C9_delete_idempotent (store : Store) (id : Nat) :
    ((∃ a ∈ store, a.id = id) →
        AutoWriteService.delete store id = (store.filter (fun a => a.id != id), true) ∧
          AutoService.findById (AutoWriteService.delete store id).1 id = .error .notFound) ∧
      ((∀ a ∈ store, a.id ≠ id) → AutoWriteService.delete store id = (store, false)) := by
  constructor
  · intro hex
    have hsome : (store.find? (fun a => a.id == id)).isSome := by
      rw [List.find?_isSome]
      obtain ⟨a, ha, hid⟩ := hex
      exact ⟨a, ha, by simp [hid]⟩
    obtain ⟨a, hfind⟩ := Option.isSome_iff_exists.mp hsome
    have hdel : AutoWriteService.delete store id = (store.filter (fun a => a.id != id), true) := by
      simp [AutoWriteService.delete, hfind]
    refine ⟨hdel, ?_⟩
    rw [hdel]
    have hnone : (store.filter (fun a => a.id != id)).find? (fun a => a.id == id) = none := by
      rw [List.find?_eq_none]
      intro x hx
      have := (List.mem_filter.mp hx).2
      simpa using this
    simp [AutoService.findById, hnone]
  · intro hnot
    have hnone : store.find? (fun a => a.id == id) = none := by
      rw [List.find?_eq_none]
      intro x hx
      simpa using hnot x hx
    simp [AutoWriteService.delete, hnone]

/-- C9 witness: deleting id 1 from the sample store removes it and makes
`findById 1` fail; deleting the absent id 9 reports `false` and changes
nothing. -/
theorem C9_witness :
    (AutoWriteService.delete sampleStore 1 = (sampleStore.filter (fun a => a.id != 1), true) ∧
        AutoService.findById (AutoWriteService.delete sampleStore 1).1 1 = .error .notFound) ∧
      AutoWriteService.delete sampleStore 9 = (sampleStore, false) :=
  ⟨(C9_delete_idempotent sampleStore 1).1 ⟨sampleAuto1, by decide, by decide⟩,
    (C9_delete_idempotent sampleStore 9).2 (by decide)⟩

/-! ## C2: the version-token pattern check -/

/-- C2, counterexample: the token `"1"x` does not have the exact
quote-digits-quote shape (nothing before or after), yet `update` accepts
it — the call on a stored row with version 0 does not fail with the
version-invalid error but succeeds, because `VERSION_PATTERN` is anchored
at the start only. -/
theorem C2_counterexample :
    specVersionExact "\"1\"x" = false ∧
      (AutoWriteService.update sampleStore ⟨some 1, sampleUpd, "\"1\"x"⟩).2 = .ok 1 := by
  exact ⟨by decide, by decide⟩

/-- C2 (amended): the version token is accepted exactly when it starts
with a double-quote, 1–3 ASCII digits and a double-quote; a token without
that prefix fails with the version-invalid error uniformly in the store
(before any store access), while any token with that prefix never produces
the version-invalid error — characters after the closing quote are
permitted. -/
theorem C2_update_versionInvalid_shape (store : Store) (i : Nat) (u : AutoUpdate)
    (v : String) :
    (versionPatternTest v = false →
        AutoWriteService.update store ⟨some i, u, v⟩ = (store, .error (.versionInvalid v))) ∧
      (versionPatternTest v = true →
        (AutoWriteService.update store ⟨some i, u, v⟩).2 ≠ .error (.versionInvalid v)) := by
  constructor
  · intro h
    simp [AutoWriteService.update, h]
  · intro h
    simp only [AutoWriteService.update, h, Bool.not_true, Bool.false_eq_true, if_false]
    cases hfb : AutoService.findById store i with
    | error e =>
      have he : e = .notFound := findById_error_eq store i e hfb
      subst he
      simp
    | ok a =>
      cases hp : jsParseInt (jsSliceInner v) with
      | none => simp [hp]
      | some n =>
        by_cases hlt : n < (a.version : Int) <;> simp [hp, hlt]

/-- C2 witness: the theorem applied to the malformed token `x` (rejected
uniformly) and to the accepted token `"2"`. -/
theorem C2_witness :
    (versionPatternTest "x" = false ∧
        AutoWriteService.update sampleStore ⟨some 2, sampleUpd, "x"⟩
          = (sampleStore, .error (.versionInvalid "x"))) ∧
      (versionPatternTest "\"2\"" = true ∧
        (AutoWriteService.update sampleStore ⟨some 2, sampleUpd, "\"2\""⟩).2
          ≠ .error (.versionInvalid "\"2\"")) :=
  ⟨⟨by decide,
      (C2_update_versionInvalid_shape sampleStore 2 sampleUpd "x").1 (by decide)⟩,
    ⟨by decide,
      (C2_update_versionInvalid_shape sampleStore 2 sampleUpd "\"2\"").2 (by decide)⟩⟩

/-! ## C5: created entities always have version 0 -/

/-- Every id in the store is strictly below `nextId`. -/
theorem id_le_foldl_max (l : List Auto) (init : Nat) :
    (∀ a ∈ l, a.id ≤ l.foldl (fun m x => max m x.id) init) ∧
      init ≤ l.foldl (fun m x => max m x.id) init := by
  induction l generalizing init with
  | nil => exact ⟨by simp, le_refl _⟩
  | cons b t ih =>
    constructor
    · intro a ha
      rcases List.mem_cons.mp ha with h | h
      · subst h
        calc a.id ≤ max init a.id := le_max_right _ _
          _ ≤ _ := (ih (max init a.id)).2
      · exact (ih (max init b.id)).1 a h
    · calc init ≤ max init b.id := le_max_left _ _
        _ ≤ _ := (ih (max init b.id)).2

/-- Freshness of the id the store assigns on insert. -/
theorem mem_id_lt_nextId (store : Store) (a : Auto) (ha : a ∈ store) :
    a.id < AutoWriteService.nextId store :=
  Nat.lt_succ_of_le ((id_le_foldl_max store 0).1 a ha)

/-- `find?` skips a first list in which nothing satisfies the predicate. -/
theorem find?_append_of_none {p : Auto → Bool} (l1 l2 : List Auto)
    (h : l1.find? p = none) : (l1 ++ l2).find? p = l2.find? p := by
  induction l1 with
  | nil => rfl
  | cons a t ih =>
    rw [List.cons_append]
    cases hpa : p a with
    | true => rw [List.find?_cons_of_pos _ hpa] at h; exact absurd h (by simp)
    | false =>
      rw [List.find?_cons_of_neg _ (by simp [hpa])] at h
      rw [List.find?_cons_of_neg _ (by simp [hpa])]
      exact ih h

/-- The shape of a successful `create`: the new row carries the input's
attributes (and in particular the input's `version`) and the fresh id. -/
theorem create_ok_shape (store : Store) (inp : AutoCreate) (st' : Store) (nid : Nat)
    (h : AutoWriteService.create store inp = (st', .ok nid)) :
    st' = store ++
        [⟨AutoWriteService.nextId store, inp.version, inp.fgnr, inp.art, inp.preis,
          inp.rabatt, inp.lieferbar, inp.datum, some inp.schlagwoerter, inp.modell⟩] ∧
      nid = AutoWriteService.nextId store := by
  simp only [AutoWriteService.create] at h
  by_cases hc : 0 < (store.filter (fun a => a.fgnr == inp.fgnr)).length
  · rw [if_pos hc] at h
    exact absurd (congrArg Prod.snd h) (by simp)
  · rw [if_neg hc] at h
    have hok := congrArg Prod.snd h
    refine ⟨(congrArg Prod.fst h).symm, ?_⟩
    injection hok with hok
    exact hok.symm

/-- `findById` finds a freshly appended row. -/
theorem findById_append_fresh (store : Store) (row : Auto)
    (hfresh : ∀ a ∈ store, a.id ≠ row.id) :
    AutoService.findById (store ++ [row]) row.id
      = .ok (AutoService.normalizeSchlagwoerter row) := by
  have hn : store.find? (fun a => a.id == row.id) = none := by
    rw [List.find?_eq_none]
    intro x hx
    simp [hfresh x hx]
  unfold AutoService.findById
  rw [find?_append_of_none _ _ hn, List.find?_cons_of_pos _ (by simp)]

/-- C5: for every caller payload, the create input produced by the REST
mapping (and likewise by the GraphQL mapping) carries `version = 0`, and
on a successful `create` the row stored under the returned id has
version 0 — the caller cannot influence the initial version, since the DTO
carries no version field at all. -/
theorem C5_create_version_zero (dto : AutoDTO) (store : Store) (st' : Store) (nid : Nat)
    (h : AutoWriteService.create store (autoDtoToAutoCreateInput dto) = (st', .ok nid)) :
    (autoDtoToAutoCreateInput dto).version = 0 ∧
      (autoDtoToAutoCreate dto).version = 0 ∧
      ∃ row, AutoService.findById st' nid = .ok row ∧ row.version = 0 := by
  refine ⟨rfl, rfl, ?_⟩
  obtain ⟨hst, hnid⟩ := create_ok_shape store (autoDtoToAutoCreateInput dto) st' nid h
  subst hst
  subst hnid
  have hfresh : ∀ a ∈ store, a.id ≠ AutoWriteService.nextId store := fun a ha =>
    Nat.ne_of_lt (mem_id_lt_nextId store a ha)
  exact ⟨_, findById_append_fresh store _ hfresh, rfl⟩

/-- C5 witness: creating from the sample payload on the two-row store
yields id 3, and the row stored under id 3 has version 0. -/
theorem C5_witness :
    ∃ row, AutoService.findById
        (AutoWriteService.create sampleStore (autoDtoToAutoCreateInput sampleDTO)).1 3
          = .ok row ∧ row.version = 0 :=
  (C5_create_version_zero sampleDTO sampleStore
      (AutoWriteService.create sampleStore (autoDtoToAutoCreateInput sampleDTO)).1 3
      (Prod.ext rfl (by decide))).2.2

/-! ## C3: stale claimed versions are rejected, the check is strictly-less-than -/

/-- C3: on an existing row with a pattern-accepted token whose enclosed
digits parse to the claimed version, a claimed version strictly below the
stored one fails with the version-outdated error carrying the claimed
version and leaves the store (in particular the stored version) unchanged;
a claimed version greater than or equal to the stored one passes the
check — the comparison is strictly-less-than only. -/
theorem C3_update_versionOutdated (store : Store) (i : Nat) (row : Auto)
    (u : AutoUpdate) (v : String) (n : Int)
    (hrow : AutoService.findById store i = .ok row)
    (hpat : versionPatternTest v = true)
    (hparse : jsParseInt (jsSliceInner v) = some n) :
    (n < (row.version : Int) →
        AutoWriteService.update store ⟨some i, u, v⟩ = (store, .error (.versionOutdated n))) ∧
      ((row.version : Int) ≤ n →
        ∀ m : Int, (AutoWriteService.update store ⟨some i, u, v⟩).2 ≠ .error (.versionOutdated m)) := by
  constructor
  · intro hlt
    simp [AutoWriteService.update, hpat, hrow, hparse, hlt]
  · intro hge m
    have hnlt : ¬ n < (row.version : Int) := not_lt.mpr hge
    simp [AutoWriteService.update, hpat, hrow, hparse, hnlt]

/-- C3 witness: the spec's running example — stored version 3, token `"2"`
is rejected as outdated with the store untouched, token `"3"` passes the
check. -/
theorem C3_witness :
    (AutoWriteService.update sampleStore ⟨some 2, sampleUpd, "\"2\""⟩
        = (sampleStore, .error (.versionOutdated 2))) ∧
      ∀ m : Int, (AutoWriteService.update sampleStore ⟨some 2, sampleUpd, "\"3\""⟩).2
        ≠ .error (.versionOutdated m) :=
  ⟨(C3_update_versionOutdated sampleStore 2 (AutoService.normalizeSchlagwoerter sampleAuto2)
        sampleUpd "\"2\"" 2 (by decide) (by decide) (by decide)).1 (by decide),
    (C3_update_versionOutdated sampleStore 2 (AutoService.normalizeSchlagwoerter sampleAuto2)
        sampleUpd "\"3\"" 3 (by decide) (by decide) (by decide)).2 (by decide)⟩

/-! ## C4: accepted updates bump the stored version by exactly one -/

/-- `find?` commutes with a map that does not change ids. -/
theorem find?_id_map (store : Store) (i : Nat) (f : Auto → Auto)
    (hf : ∀ a, (f a).id = a.id) :
    (store.map f).find? (fun a => a.id == i) = (store.find? (fun a => a.id == i)).map f := by
  induction store with
  | nil => rfl
  | cons a t ih =>
    rw [List.map_cons]
    by_cases hi : (a.id == i) = true
    · have hfa : ((f a).id == i) = true := by rw [hf]; exact hi
      simp [List.find?_cons, hfa, hi]
    · have hi2 : (a.id == i) = false := by simpa using hi
      have hfa : ((f a).id == i) = false := by rw [hf]; exact hi2
      simp [List.find?_cons, hfa, hi2, ih]

/-- C4: on an existing row with a pattern-accepted token whose claimed
version is at least the stored one, `update` succeeds, returns exactly the
stored version plus 1, and the row subsequently read for that id carries
exactly the old stored version plus 1. -/
theorem C4_update_increments_version (store : Store) (i : Nat) (row : Auto)
    (u : AutoUpdate) (v : String) (n : Int)
    (hrow : AutoService.findById store i = .ok row)
    (hpat : versionPatternTest v = true)
    (hparse : jsParseInt (jsSliceInner v) = some n)
    (hge : (row.version : Int) ≤ n) :
    (AutoWriteService.update store ⟨some i, u, v⟩).2 = .ok (row.version + 1) ∧
      ∃ row', AutoService.findById (AutoWriteService.update store ⟨some i, u, v⟩).1 i
          = .ok row' ∧ row'.version = row.version + 1 := by
  have hnlt : ¬ n < (row.version : Int) := not_lt.mpr hge
  have hupd : AutoWriteService.update store ⟨some i, u, v⟩
      = (store.map (fun a => if a.id == i then AutoWriteService.applyUpdate a u else a),
         .ok (row.version + 1)) := by
    simp [AutoWriteService.update, hpat, hrow, hparse, hnlt]
  refine ⟨by rw [hupd], ?_⟩
  obtain ⟨row0, hfind, hrow0⟩ : ∃ row0, store.find? (fun a => a.id == i) = some row0 ∧
      AutoService.normalizeSchlagwoerter row0 = row := by
    unfold AutoService.findById at hrow
    cases hfind : store.find? (fun a => a.id == i) with
    | none => rw [hfind] at hrow; exact absurd hrow (by simp)
    | some r =>
      rw [hfind] at hrow
      exact ⟨r, rfl, by injection hrow⟩
  have hf : ∀ a : Auto,
      ((fun a => if a.id == i then AutoWriteService.applyUpdate a u else a) a).id = a.id := by
    intro a
    by_cases hi : a.id == i <;> simp [hi, AutoWriteService.applyUpdate]
  rw [hupd]
  dsimp only
  have hid : (row0.id == i) = true := by
    have := List.find?_some hfind
    simpa using this
  have hmap : (store.map (fun a => if a.id == i then AutoWriteService.applyUpdate a u else a)).find?
      (fun a => a.id == i) = some (AutoWriteService.applyUpdate row0 u) := by
    rw [find?_id_map store i _ hf, hfind, Option.map_some', if_pos hid]
  refine ⟨AutoService.normalizeSchlagwoerter (AutoWriteService.applyUpdate row0 u), ?_, ?_⟩
  · unfold AutoService.findById
    rw [hmap]
  · have hv : row.version = row0.version := by rw [← hrow0]; rfl
    simp [hv, AutoWriteService.applyUpdate, AutoService.normalizeSchlagwoerter]

/-- C4 witness: stored version 3, token `"3"` — the update returns version
4 and the row read back under id 2 carries version 4. -/
theorem C4_witness :
    (AutoWriteService.update sampleStore ⟨some 2, sampleUpd, "\"3\""⟩).2 = .ok 4 ∧
      ∃ row', AutoService.findById
          (AutoWriteService.update sampleStore ⟨some 2, sampleUpd, "\"3\""⟩).1 2
        = .ok row' ∧ row'.version = 4 :=
  C4_update_increments_version sampleStore 2 (AutoService.normalizeSchlagwoerter sampleAuto2)
    sampleUpd "\"3\"" 3 (by decide) (by decide) (by decide) (by decide)

/-! ## C8: tolerant numeric parsing in the where builder -/

/-- An entry whose key is not `preis` never touches the `preis` field. -/
theorem applyEntry_preis_of_ne (w : AutoWhere) (kv : String × JsValue)
    (h : kv.1 ≠ "preis") : (WhereBuilder.applyEntry w kv).preis = w.preis := by
  unfold WhereBuilder.applyEntry
  split_ifs <;> first | rfl | (split <;> rfl)

/-- An entry whose key is not `rabatt` never touches the `rabatt` field. -/
theorem applyEntry_rabatt_of_ne (w : AutoWhere) (kv : String × JsValue)
    (h : kv.1 ≠ "rabatt") : (WhereBuilder.applyEntry w kv).rabatt = w.rabatt := by
  unfold WhereBuilder.applyEntry
  split_ifs <;> first | rfl | (split <;> rfl)

/-- A `preis` entry whose value fails `parseFloat` leaves the where object
unchanged. -/
theorem applyEntry_preis_none (w : AutoWhere) (v : JsValue)
    (h : jsParseFloatOfValue v = none) : WhereBuilder.applyEntry w ("preis", v) = w := by
  simp [WhereBuilder.applyEntry, h]

/-- A `preis` entry whose value parses sets the `lte` predicate. -/
theorem applyEntry_preis_some (w : AutoWhere) (v : JsValue) (n : JsNumber)
    (h : jsParseFloatOfValue v = some n) :
    WhereBuilder.applyEntry w ("preis", v) = { w with preis := some (.lte n) } := by
  simp [WhereBuilder.applyEntry, h]

/-- A `rabatt` entry whose value fails `parseInt` leaves the where object
unchanged. -/
theorem applyEntry_rabatt_none (w : AutoWhere) (v : JsValue)
    (h : jsParseIntOfValue v = none) : WhereBuilder.applyEntry w ("rabatt", v) = w := by
  simp [WhereBuilder.applyEntry, h]

/-- A `rabatt` entry whose value parses sets the `gte` predicate. -/
theorem applyEntry_rabatt_some (w : AutoWhere) (v : JsValue) (n : Int)
    (h : jsParseIntOfValue v = some n) :
    WhereBuilder.applyEntry w ("rabatt", v) = { w with rabatt := some (.gte n) } := by
  simp [WhereBuilder.applyEntry, h]

/-- Folding entries without a `preis` key preserves the `preis` field. -/
theorem foldl_preis_stable (l : List (String × JsValue)) (w : AutoWhere)
    (h : "preis" ∉ l.map Prod.fst) :
    (l.foldl WhereBuilder.applyEntry w).preis = w.preis := by
  induction l generalizing w with
  | nil => rfl
  | cons kv t ih =>
    rw [List.foldl_cons]
    have h1 : kv.1 ≠ "preis" := by
      intro hc
      exact h (by simp [← hc])
    have h2 : "preis" ∉ t.map Prod.fst := by
      intro hc
      exact h (by simp [hc])
    rw [ih _ h2, applyEntry_preis_of_ne w kv h1]

/-- Folding entries without a `rabatt` key preserves the `rabatt` field. -/
theorem foldl_rabatt_stable (l : List (String × JsValue)) (w : AutoWhere)
    (h : "rabatt" ∉ l.map Prod.fst) :
    (l.foldl WhereBuilder.applyEntry w).rabatt = w.rabatt := by
  induction l generalizing w with
  | nil => rfl
  | cons kv t ih =>
    rw [List.foldl_cons]
    have h1 : kv.1 ≠ "rabatt" := by
      intro hc
      exact h (by simp [← hc])
    have h2 : "rabatt" ∉ t.map Prod.fst := by
      intro hc
      exact h (by simp [hc])
    rw [ih _ h2, applyEntry_rabatt_of_ne w kv h1]

/-- `lookup` skips a middle entry with a different key. -/
theorem lookup_middle_ne (k k' : String) (val : JsValue)
    (l1 l2 : List (String × JsValue)) (h : k ≠ k') :
    List.lookup k (l1 ++ (k', val) :: l2) = List.lookup k (l1 ++ l2) := by
  have hk : (k == k') = false := beq_eq_false_iff_ne.mpr h
  induction l1 with
  | nil => simp [List.lookup, hk]
  | cons a t ih =>
    obtain ⟨k1, v1⟩ := a
    by_cases hk1 : (k == k1) = true
    · simp [List.lookup, hk1]
    · have : (k == k1) = false := by simpa using hk1
      simp [List.lookup, this, ih]

/-- The projection of `build` to the fields assembled by the entry fold:
the final tag step never touches them. -/
theorem build_preis_eq_foldl (sp : Suchparameter) :
    (WhereBuilder.build sp).preis
      = ((sp.filter (fun kv => kv.1 ≠ "schlagwort")).foldl WhereBuilder.applyEntry {}).preis := by
  unfold WhereBuilder.build
  split <;> rfl

/-- As `build_preis_eq_foldl`, for the `rabatt` field. -/
theorem build_rabatt_eq_foldl (sp : Suchparameter) :
    (WhereBuilder.build sp).rabatt
      = ((sp.filter (fun kv => kv.1 ≠ "schlagwort")).foldl WhereBuilder.applyEntry {}).rabatt := by
  unfold WhereBuilder.build
  split <;> rfl

/-- Keys of a filtered list are among the original keys. -/
theorem not_mem_map_fst_filter (k : String) (p : String × JsValue → Bool)
    (l : List (String × JsValue)) (h : k ∉ l.map Prod.fst) :
    k ∉ (l.filter p).map Prod.fst := by
  intro hc
  obtain ⟨kv, hkv, hfst⟩ := List.mem_map.mp hc
  exact h (List.mem_map.mpr ⟨kv, (List.mem_filter.mp hkv).1, hfst⟩)

/-- Splitting the `schlagwort` pre-filter around a `preis` or `rabatt`
entry. -/
theorem filter_schlagwort_middle (key : String) (v : JsValue)
    (pre post : Suchparameter) (hkey : key ≠ "schlagwort") :
    (pre ++ (key, v) :: post).filter (fun kv => kv.1 ≠ "schlagwort")
      = pre.filter (fun kv => kv.1 ≠ "schlagwort")
          ++ (key, v) :: post.filter (fun kv => kv.1 ≠ "schlagwort") := by
  rw [List.filter_append, List.filter_cons]
  simp [hkey]

/-- `build` on a filter with an inert middle entry (one on which
`applyEntry` is the identity, and which is not the tag key) agrees with
`build` on the filter without that entry. -/
theorem build_middle_inert (key : String) (v : JsValue) (pre post : Suchparameter)
    (hkey : key ≠ "schlagwort")
    (hid : ∀ w, WhereBuilder.applyEntry w (key, v) = w) :
    WhereBuilder.build (pre ++ (key, v) :: post) = WhereBuilder.build (pre ++ post) := by
  simp only [WhereBuilder.build]
  rw [filter_schlagwort_middle key v pre post hkey, List.filter_append,
    List.foldl_append, List.foldl_append, List.foldl_cons, hid,
    lookup_middle_ne "schlagwort" key v pre post (fun hc => hkey hc.symm)]

/-- C8: the where builder treats `preis` and `rabatt` tolerantly.  If the
value fails numeric parsing, the whole built filter is the one obtained by
dropping that single entry — no error, and every other predicate kept.  If
parsing succeeds (and no later entry re-binds the key), `preis` becomes the
less-than-or-equal (ceiling) predicate and `rabatt` the
greater-than-or-equal (minimum) predicate for the parsed value. -/
theorem C8_whereBuilder_tolerant (pre post : Suchparameter) (v : JsValue) :
    ((jsParseFloatOfValue v = none →
        WhereBuilder.build (pre ++ ("preis", v) :: post) = WhereBuilder.build (pre ++ post)) ∧
      (∀ n, jsParseFloatOfValue v = some n → "preis" ∉ post.map Prod.fst →
        (WhereBuilder.build (pre ++ ("preis", v) :: post)).preis = some (.lte n))) ∧
    ((jsParseIntOfValue v = none →
        WhereBuilder.build (pre ++ ("rabatt", v) :: post) = WhereBuilder.build (pre ++ post)) ∧
      (∀ n, jsParseIntOfValue v = some n → "rabatt" ∉ post.map Prod.fst →
        (WhereBuilder.build (pre ++ ("rabatt", v) :: post)).rabatt = some (.gte n))) := by
  refine ⟨⟨fun h => ?_, fun n h hpost => ?_⟩, ⟨fun h => ?_, fun n h hpost => ?_⟩⟩
  · exact build_middle_inert "preis" v pre post (by decide)
      (fun w => applyEntry_preis_none w v h)
  · rw [build_preis_eq_foldl, filter_schlagwort_middle "preis" v pre post (by decide),
      List.foldl_append, List.foldl_cons, applyEntry_preis_some _ v n h,
      foldl_preis_stable _ _ (not_mem_map_fst_filter _ _ _ hpost)]
  · exact build_middle_inert "rabatt" v pre post (by decide)
      (fun w => applyEntry_rabatt_none w v h)
  · rw [build_rabatt_eq_foldl, filter_schlagwort_middle "rabatt" v pre post (by decide),
      List.foldl_append, List.foldl_cons, applyEntry_rabatt_some _ v n h,
      foldl_rabatt_stable _ _ (not_mem_map_fst_filter _ _ _ hpost)]

/-- C8 witness: the unparseable value `abc` drops exactly the `preis`
(resp. `rabatt`) predicate while keeping the neighbouring ones, and the
parseable values `50` / `7` yield the `lte` / `gte` predicates. -/
theorem C8_witness :
    (WhereBuilder.build
          [("modell", JsValue.vStr "bm"), ("preis", JsValue.vStr "abc"),
            ("lieferbar", JsValue.vStr "true")]
        = WhereBuilder.build [("modell", JsValue.vStr "bm"), ("lieferbar", JsValue.vStr "true")]) ∧
      ((WhereBuilder.build [("preis", JsValue.vStr "50")]).preis
        = (jsParseFloatOfValue (JsValue.vStr "50")).map PreisPred.lte) ∧
      (WhereBuilder.build [("rabatt", JsValue.vStr "abc"), ("fgnr", JsValue.vStr "X")]
        = WhereBuilder.build [("fgnr", JsValue.vStr "X")]) ∧
      (WhereBuilder.build [("rabatt", JsValue.vStr "7")]).rabatt = some (.gte 7) :=
  ⟨(C8_whereBuilder_tolerant [("modell", JsValue.vStr "bm")]
        [("lieferbar", JsValue.vStr "true")] (JsValue.vStr "abc")).1.1 (by decide),
    (C8_whereBuilder_tolerant [] [] (JsValue.vStr "50")).1.2 _ rfl (by decide),
    (C8_whereBuilder_tolerant [] [("fgnr", JsValue.vStr "X")] (JsValue.vStr "abc")).2.1
      (by decide),
    (C8_whereBuilder_tolerant [] [] (JsValue.vStr "7")).2.2 7 (by decide) (by decide)⟩

/-! ## C10: entities with stored version ≥ 1000 can never be updated -/

/-- Bounds of an ASCII digit's code point. -/
theorem isDigit_toNat (c : Char) (h : isDigitChar c = true) :
    48 ≤ c.toNat ∧ c.toNat ≤ 57 := by
  simpa [isDigitChar] using h

/-- A digit's value is at most 9. -/
theorem digitVal_le (c : Char) (h : isDigitChar c = true) : digitVal c ≤ 9 := by
  obtain ⟨h1, h2⟩ := isDigit_toNat c h
  unfold digitVal
  omega

/-- A digit is not whitespace. -/
theorem isDigit_not_ws (c : Char) (h : isDigitChar c = true) : isWsChar c = false := by
  unfold isWsChar
  have hne : ∀ d : Char, isDigitChar d = false → c ≠ d := by
    intro d hd hc
    subst hc
    rw [h] at hd
    exact Bool.true_eq_false.mp hd
  rw [beq_eq_false_iff_ne.mpr (hne ' ' (by decide)),
    beq_eq_false_iff_ne.mpr (hne '\t' (by decide)),
    beq_eq_false_iff_ne.mpr (hne '\n' (by decide)),
    beq_eq_false_iff_ne.mpr (hne '\r' (by decide))]
  rfl

/-- `parseInt` of a digit-headed list is the value of the leading digit
run. -/
theorem jsParseIntChars_digit (c : Char) (xs : List Char) (h : isDigitChar c = true) :
    jsParseIntChars (c :: xs)
      = some ((digitsVal ((c :: xs).takeWhile isDigitChar) : Nat) : Int) := by
  have hws : isWsChar c = false := isDigit_not_ws c h
  have hplus : (c == '+') = false := by
    rw [beq_eq_false_iff_ne]
    intro hc
    subst hc
    exact absurd h (by decide)
  have hminus : (c == '-') = false := by
    rw [beq_eq_false_iff_ne]
    intro hc
    subst hc
    exact absurd h (by decide)
  simp only [jsParseIntChars, List.dropWhile_cons, hws, Bool.false_eq_true, if_false]
  simp only [hplus, hminus, Bool.false_eq_true, if_false]
  simp [jsDigitsValue, List.takeWhile_cons, h]

/-- After a closing quote, the leading digit run of the remaining slice is
empty. -/
theorem takeWhile_quote_dropLast (t : List Char) :
    ((('"' : Char) :: t).dropLast).takeWhile isDigitChar = [] := by
  cases t with
  | nil => rfl
  | cons b t' =>
    show ((('"' : Char) :: (b :: t').dropLast).takeWhile isDigitChar) = []
    rw [List.takeWhile_cons]
    simp [isDigitChar]

/-- A pattern-accepted version token parses (after `slice(1, -1)`) to a
natural number of at most three digits, hence at most 999: the pattern
pins 1–3 digits directly after the opening quote, terminated by a quote,
and `parseInt` stops at that quote. -/
theorem versionPattern_parse_bound (v : String) (h : versionPatternTest v = true) :
    ∃ n : Nat, jsParseInt (jsSliceInner v) = some (n : Int) ∧ n ≤ 999 := by
  cases v with
  | mk cs =>
  show ∃ n : Nat, jsParseIntChars ((cs.drop 1).dropLast) = some (n : Int) ∧ n ≤ 999
  cases cs with
  | nil => simp [versionPatternTest, versionPatternTestL] at h
  | cons c0 cs1 =>
  cases cs1 with
  | nil => simp [versionPatternTest, versionPatternTestL] at h
  | cons c1 rest =>
  simp only [versionPatternTest, versionPatternTestL, Bool.and_eq_true, beq_iff_eq,
    Bool.or_eq_true] at h
  obtain ⟨⟨hc0, hd1⟩, hB⟩ := h
  subst hc0
  rcases hB with hA | hBm
  · -- the quote closes after the first digit
    cases rest with
    | nil => exact absurd hA (by decide)
    | cons r0 t =>
      have hr0 : r0 = '"' := by simpa [headIs] using hA
      subst hr0
      refine ⟨digitVal c1, ?_, ?_⟩
      · show jsParseIntChars (c1 :: (('"' :: t).dropLast)) = some ((digitVal c1 : Nat) : Int)
        rw [jsParseIntChars_digit c1 _ hd1, List.takeWhile_cons]
        rw [hd1]
        simp [takeWhile_quote_dropLast, digitsVal]
      · have := digitVal_le c1 hd1
        omega
  · cases rest with
    | nil => simp at hBm
    | cons c2 rest2 =>
    rw [Bool.and_eq_true, Bool.or_eq_true] at hBm
    obtain ⟨hd2, hB2⟩ := hBm
    rcases hB2 with hA2 | hBm2
    · -- the quote closes after the second digit
      cases rest2 with
      | nil => exact absurd hA2 (by decide)
      | cons r0 t =>
        have hr0 : r0 = '"' := by simpa [headIs] using hA2
        subst hr0
        refine ⟨10 * digitVal c1 + digitVal c2, ?_, ?_⟩
        · show jsParseIntChars (c1 :: c2 :: (('"' :: t).dropLast))
            = some ((10 * digitVal c1 + digitVal c2 : Nat) : Int)
          rw [jsParseIntChars_digit c1 _ hd1, List.takeWhile_cons, hd1]
          rw [List.takeWhile_cons, hd2]
          simp [takeWhile_quote_dropLast, digitsVal]
        · have := digitVal_le c1 hd1
          have := digitVal_le c2 hd2
          omega
    · cases rest2 with
      | nil => simp at hBm2
      | cons c3 rest3 =>
      rw [Bool.and_eq_true] at hBm2
      obtain ⟨hd3, hA3⟩ := hBm2
      -- the quote closes after the third digit
      cases rest3 with
      | nil => exact absurd hA3 (by decide)
      | cons r0 t =>
        have hr0 : r0 = '"' := by simpa [headIs] using hA3
        subst hr0
        refine ⟨100 * digitVal c1 + 10 * digitVal c2 + digitVal c3, ?_, ?_⟩
        · show jsParseIntChars (c1 :: c2 :: c3 :: (('"' :: t).dropLast))
            = some ((100 * digitVal c1 + 10 * digitVal c2 + digitVal c3 : Nat) : Int)
          rw [jsParseIntChars_digit c1 _ hd1, List.takeWhile_cons, hd1]
          rw [List.takeWhile_cons, hd2, List.takeWhile_cons, hd3]
          simp [takeWhile_quote_dropLast, digitsVal]
          ring
        · have := digitVal_le c1 hd1
          have := digitVal_le c2 hd2
          have := digitVal_le c3 hd3
          omega

/-- C10: an entity whose stored version is at least 1000 can never be
updated: every version token either fails `VERSION_PATTERN`
(version-invalid) or — because the pattern admits at most three digits and
`parseInt` stops at the closing quote — parses to a claimed version of at
most 999, which is strictly below the stored version (version-outdated);
in both cases the store is unchanged, so the entity stays un-updatable
forever. -/
theorem C10_version_1000_unupdatable (store : Store) (i : Nat) (row : Auto)
    (u : AutoUpdate) (v : String)
    (hrow : AutoService.findById store i = .ok row)
    (hver : 1000 ≤ row.version) :
    (versionPatternTest v = false →
        AutoWriteService.update store ⟨some i, u, v⟩ = (store, .error (.versionInvalid v))) ∧
      (versionPatternTest v = true →
        ∃ n : Nat, jsParseInt (jsSliceInner v) = some (n : Int) ∧ n ≤ 999 ∧
          AutoWriteService.update store ⟨some i, u, v⟩
            = (store, .error (.versionOutdated (n : Int)))) := by
  constructor
  · intro h
    simp [AutoWriteService.update, h]
  · intro h
    obtain ⟨n, hp, hb⟩ := versionPattern_parse_bound v h
    have hlt : (n : Int) < (row.version : Int) := by
      have : n < row.version := by omega
      exact_mod_cast this
    refine ⟨n, hp, hb, ?_⟩
    simp [AutoWriteService.update, h, hrow, hp, hlt]

/-- The C10 witness row: stored version 1000. -/
def c10Auto : Auto := { sampleAuto1 with version := 1000 }

/-- C10 witness: on a store whose only row has version 1000, the malformed
token `x` is version-invalid, and the best-possible token `"999"` parses
to 999 and is version-outdated; the store is unchanged either way. -/
theorem C10_witness :
    (AutoWriteService.update [c10Auto] ⟨some 1, sampleUpd, "x"⟩
        = ([c10Auto], .error (.versionInvalid "x"))) ∧
      ∃ n : Nat, jsParseInt (jsSliceInner "\"999\"") = some (n : Int) ∧ n ≤ 999 ∧
        AutoWriteService.update [c10Auto] ⟨some 1, sampleUpd, "\"999\""⟩
          = ([c10Auto], .error (.versionOutdated (n : Int))) :=
  ⟨(C10_version_1000_unupdatable [c10Auto] 1 (AutoService.normalizeSchlagwoerter c10Auto)
        sampleUpd "x" (by decide) (by decide)).1 (by decide),
    (C10_version_1000_unupdatable [c10Auto] 1 (AutoService.normalizeSchlagwoerter c10Auto)
        sampleUpd "\"999\"" (by decide) (by decide)).2 (by decide)⟩

end AutoApp
